import Mathlib

/-!
Shallow embedding of the forecast-error scoring and reconciliation pipeline of
the KalshicastData repository (src/db.py and src/morning.py), together with
theorems settling the behavioural claims about it.

Relational tables are modelled as association lists; SQL
`insert ... on conflict (key) do update` is modelled by `setKey`,
`update ... where key` by `updateKey`, and `insert ... on conflict do nothing`
by `insertIfAbsent`.  SQL `now()` and the module-global run timestamp are
supplied explicitly as parameters.  Numeric columns are modelled by `ℚ`,
calendar dates by `Int` day numbers, and timestamps by strings.
-/

namespace Kalshicast

/-- First binding for a key in an association list (a uniqueness-constrained
relational table holds at most one row per key). -/
def alookup {κ α : Type} [DecidableEq κ] : List (κ × α) → κ → Option α
  | [], _ => none
  | (k0, v0) :: t, k => if k0 = k then some v0 else alookup t k

/-- `insert ... on conflict (key) do update`: the conflicting row is rewritten
by `f (some oldRow)`; if no row holds the key, `f none` is inserted. -/
def setKey {κ α : Type} [DecidableEq κ] : List (κ × α) → κ → (Option α → α) → List (κ × α)
  | [], k, f => [(k, f none)]
  | (k0, v0) :: t, k, f =>
      if k0 = k then (k0, f (some v0)) :: t else (k0, v0) :: setKey t k f

/-- `update ... set ... where key = k`: every row holding the key is rewritten. -/
def updateKey {κ α : Type} [DecidableEq κ] : List (κ × α) → κ → (α → α) → List (κ × α)
  | [], _, _ => []
  | (k0, v0) :: t, k, g => (k0, if k0 = k then g v0 else v0) :: updateKey t k g

/-- SQL `coalesce(a, b)` on nullable values. -/
def coalesce {α : Type} (a b : Option α) : Option α :=
  match a with
  | some v => some v
  | none => b

theorem alookup_setKey {κ α : Type} [DecidableEq κ]
    (m : List (κ × α)) (k k' : κ) (f : Option α → α) :
    alookup (setKey m k f) k' =
      if k' = k then some (f (alookup m k)) else alookup m k' := by
  induction m with
  | nil =>
      by_cases h : k' = k
      · simp [setKey, alookup, h]
      · have h' : ¬ (k = k') := fun hc => h hc.symm
        simp [setKey, alookup, h, h']
  | cons kv t ih =>
      obtain ⟨k0, v0⟩ := kv
      by_cases h0 : k0 = k
      · subst h0
        by_cases h : k' = k0
        · subst h
          simp [setKey, alookup]
        · have h' : ¬ (k0 = k') := fun hc => h hc.symm
          simp [setKey, alookup, h, h']
      · by_cases h1 : k0 = k'
        · subst h1
          simp [setKey, alookup, h0]
        · simp [setKey, alookup, h0, h1, ih]

theorem alookup_updateKey {κ α : Type} [DecidableEq κ]
    (m : List (κ × α)) (k k' : κ) (g : α → α) :
    alookup (updateKey m k g) k' =
      if k' = k then (alookup m k).map g else alookup m k' := by
  induction m with
  | nil =>
      by_cases h : k' = k <;> simp [updateKey, alookup, h]
  | cons kv t ih =>
      obtain ⟨k0, v0⟩ := kv
      by_cases h1 : k0 = k'
      · subst h1
        by_cases h2 : k0 = k
        · subst h2
          simp [updateKey, alookup]
        · simp [updateKey, alookup, h2]
      · by_cases h2 : k' = k
        · subst h2
          simp [updateKey, alookup, h1, ih]
        · simp [updateKey, alookup, h1, h2, ih]

/-! ## Observation reconciler (`src/db.py`: `_obs_priority`, `upsert_observation`,
`get_or_create_observation_run`) -/

/-- `_OBS_SOURCE_PRIORITY` from src/db.py. -/
def OBS_SOURCE_PRIORITY : List (String × Nat) :=
  [("NWS_CLI", 100), ("nws_cli", 100), ("NWS_OBS_FALLBACK", 10), ("nws_station_obs", 10)]

/-- `_obs_priority(source)`: dictionary lookup with default 0. -/
def obs_priority (source : String) : Nat :=
  (alookup OBS_SOURCE_PRIORITY source).getD 0

/-- One stored observation row (columns of `public.observations` /
`public.observations_v2` other than the key). -/
structure ObsRow where
  observed_high : ℚ
  observed_low : ℚ
  issued_at : Option String
  fetched_at : String
  raw_text : Option String
  source : String
deriving DecidableEq, Repr

/-- The observation side of the store.  `hasRuns`/`hasV2` model the
`to_regclass` table-existence probes for `public.observation_runs` and
`public.observations_v2`. -/
structure ObsState where
  hasRuns : Bool
  hasV2 : Bool
  observation_runs : List (String × Nat)
  nextObsRunId : Nat
  observations_v2 : List ((Nat × String × Int) × ObsRow)
  observations : List ((String × Int) × ObsRow)
deriving DecidableEq, Repr

/-- `get_or_create_observation_run(run_issued_at)`: upsert on the unique
`run_issued_at` key returning the row's `run_id`; a fresh id is drawn from a
counter when the key is new. -/
def get_or_create_observation_run (run_issued_at : String) (s : ObsState) :
    Nat × ObsState :=
  match alookup s.observation_runs run_issued_at with
  | some rid => (rid, s)
  | none =>
      (s.nextObsRunId,
        { s with
            observation_runs := (run_issued_at, s.nextObsRunId) :: s.observation_runs
            nextObsRunId := s.nextObsRunId + 1 })

/-- The row produced by the `insert ... on conflict do update` in
`upsert_observation` (identical merge clause for the legacy and the v2 table):
values, `fetched_at` and `source` are overwritten, `issued_at` and `raw_text`
are coalesced with the previous row. -/
def obsWriteRow (observed_high observed_low : ℚ) (issued_at : Option String)
    (raw_text : Option String) (source now : String) (old : Option ObsRow) : ObsRow :=
  { observed_high := observed_high
    observed_low := observed_low
    issued_at := coalesce issued_at (old.bind (fun r => r.issued_at))
    fetched_at := now
    raw_text := coalesce raw_text (old.bind (fun r => r.raw_text))
    source := source }

/-- `upsert_observation(station_id, obs_date, observed_high, observed_low,
issued_at, raw_text, source, run_issued_at)` from src/db.py.  `run_issued_at`
stands for the argument or, when omitted in Python, the module-global
`_get_obs_run_issued_at()` value; `now` is the SQL `now()` of this call. -/
def upsert_observation (station_id : String) (obs_date : Int)
    (observed_high observed_low : ℚ) (issued_at : Option String)
    (raw_text : Option String) (source : String)
    (run_issued_at : String) (now : String) (s : ObsState) : ObsState :=
  if s.hasRuns && s.hasV2 then
    let rs := get_or_create_observation_run run_issued_at s
    let s1 := rs.2
    { s1 with
        observations_v2 :=
          setKey s1.observations_v2 (rs.1, station_id, obs_date)
            (obsWriteRow observed_high observed_low issued_at raw_text source now) }
  else
    match alookup s.observations (station_id, obs_date) with
    | some r0 =>
        if obs_priority source < obs_priority r0.source then
          { s with
              observations :=
                updateKey s.observations (station_id, obs_date)
                  (fun r => { r with fetched_at := now }) }
        else
          { s with
              observations :=
                setKey s.observations (station_id, obs_date)
                  (obsWriteRow observed_high observed_low issued_at raw_text source now) }
    | none =>
        { s with
            observations :=
              setKey s.observations (station_id, obs_date)
                (obsWriteRow observed_high observed_low issued_at raw_text source now) }

/-- Argument record for one `upsert_observation` call, for reasoning about
call sequences. -/
structure ObsCall where
  station_id : String
  obs_date : Int
  observed_high : ℚ
  observed_low : ℚ
  issued_at : Option String
  raw_text : Option String
  source : String
  run_issued_at : String
  now : String
deriving DecidableEq, Repr

/-- Apply a sequence of `upsert_observation` calls in order. -/
def applyObsCalls (s : ObsState) (cs : List ObsCall) : ObsState :=
  cs.foldl
    (fun acc c =>
      upsert_observation c.station_id c.obs_date c.observed_high c.observed_low
        c.issued_at c.raw_text c.source c.run_issued_at c.now acc) s

theorem upsert_observation_flags (station_id : String) (obs_date : Int)
    (oh ol : ℚ) (ia rt : Option String) (src rit now : String) (s : ObsState) :
    (upsert_observation station_id obs_date oh ol ia rt src rit now s).hasRuns = s.hasRuns ∧
    (upsert_observation station_id obs_date oh ol ia rt src rit now s).hasV2 = s.hasV2 := by
  unfold upsert_observation get_or_create_observation_run
  by_cases h : (s.hasRuns && s.hasV2) = true
  · cases halook : alookup s.observation_runs rit <;> simp [h, halook]
  · rw [Bool.not_eq_true] at h
    cases hobs : alookup s.observations (station_id, obs_date) with
    | none => simp [h, hobs]
    | some r0 =>
        by_cases hp : obs_priority src < obs_priority r0.source <;> simp [h, hobs, hp]

/-- One legacy-mode `upsert_observation` call never lowers the authority of the
source stored for any (station, date) row, and never removes a row. -/
theorem upsert_observation_legacy_mono_step (s : ObsState)
    (hleg : (s.hasRuns && s.hasV2) = false) (c : ObsCall)
    (k : String × Int) (r : ObsRow) (hk : alookup s.observations k = some r) :
    ∃ r', alookup (upsert_observation c.station_id c.obs_date c.observed_high
        c.observed_low c.issued_at c.raw_text c.source c.run_issued_at c.now
        s).observations k = some r' ∧
      obs_priority r.source ≤ obs_priority r'.source := by
  unfold upsert_observation
  rw [hleg]
  simp only [Bool.false_eq_true, if_false]
  cases hobs : alookup s.observations (c.station_id, c.obs_date) with
  | none =>
      have hne : ¬ (k = (c.station_id, c.obs_date)) := by
        intro hkk; rw [hkk, hobs] at hk; exact Option.noConfusion hk
      refine ⟨r, ?_, le_refl _⟩
      simp [alookup_setKey, hne, hk]
  | some r0 =>
      by_cases hp : obs_priority c.source < obs_priority r0.source
      · simp only [hp, if_true]
        by_cases hkk : k = (c.station_id, c.obs_date)
        · subst hkk
          have hr : r = r0 := by rw [hk] at hobs; exact Option.some.inj hobs
          refine ⟨{ r0 with fetched_at := c.now }, ?_, ?_⟩
          · simp [alookup_updateKey, hobs]
          · rw [hr]
        · exact ⟨r, by simp [alookup_updateKey, hkk, hk], le_refl _⟩
      · simp only [hp, if_false]
        by_cases hkk : k = (c.station_id, c.obs_date)
        · subst hkk
          have hr : r = r0 := by rw [hk] at hobs; exact Option.some.inj hobs
          refine ⟨obsWriteRow c.observed_high c.observed_low c.issued_at c.raw_text
            c.source c.now (alookup s.observations (c.station_id, c.obs_date)), ?_, ?_⟩
          · simp [alookup_setKey]
          · rw [hr]
            exact le_of_not_lt hp
        · exact ⟨r, by simp [alookup_setKey, hkk, hk], le_refl _⟩

theorem applyObsCalls_legacy_mono (cs : List ObsCall) (s : ObsState)
    (hleg : (s.hasRuns && s.hasV2) = false)
    (k : String × Int) (r : ObsRow) (hk : alookup s.observations k = some r) :
    ∃ r', alookup (applyObsCalls s cs).observations k = some r' ∧
      obs_priority r.source ≤ obs_priority r'.source := by
  induction cs generalizing s r with
  | nil => exact ⟨r, hk, le_refl _⟩
  | cons c cs ih =>
      obtain ⟨r1, hr1, hle1⟩ := upsert_observation_legacy_mono_step s hleg c k r hk
      have hflags := upsert_observation_flags c.station_id c.obs_date c.observed_high
        c.observed_low c.issued_at c.raw_text c.source c.run_issued_at c.now s
      have hleg' : ((upsert_observation c.station_id c.obs_date c.observed_high
          c.observed_low c.issued_at c.raw_text c.source c.run_issued_at c.now
          s).hasRuns &&
          (upsert_observation c.station_id c.obs_date c.observed_high
          c.observed_low c.issued_at c.raw_text c.source c.run_issued_at c.now
          s).hasV2) = false := by
        rw [hflags.1, hflags.2]; exact hleg
      obtain ⟨r', hr', hle2⟩ := ih _ hleg' r1 hr1
      exact ⟨r', hr', le_trans hle1 hle2⟩

/-- C1: in the legacy single-row observation schema, `upsert_observation`
leaves the stored values and source untouched (only `fetched_at` is refreshed)
when the incoming source has strictly lower authority than the stored one;
it overwrites values, timestamp and source when the incoming authority is
greater or equal; it always applies when no row exists; and across any
sequence of calls the authority of the stored source never decreases. -/
theorem upsert_observation_legacy_authority
    (s : ObsState) (hleg : (s.hasRuns && s.hasV2) = false)
    (st : String) (d : Int) (oh ol : ℚ) (ia rt : Option String) (src rit now : String) :
    (∀ r0, alookup s.observations (st, d) = some r0 →
      obs_priority src < obs_priority r0.source →
      alookup (upsert_observation st d oh ol ia rt src rit now s).observations (st, d) =
        some { r0 with fetched_at := now }) ∧
    (∀ r0, alookup s.observations (st, d) = some r0 →
      obs_priority r0.source ≤ obs_priority src →
      ∃ r', alookup (upsert_observation st d oh ol ia rt src rit now s).observations
          (st, d) = some r' ∧
        r'.observed_high = oh ∧ r'.observed_low = ol ∧ r'.source = src ∧
        r'.fetched_at = now) ∧
    (alookup s.observations (st, d) = none →
      ∃ r', alookup (upsert_observation st d oh ol ia rt src rit now s).observations
          (st, d) = some r' ∧
        r'.observed_high = oh ∧ r'.observed_low = ol ∧ r'.source = src ∧
        r'.fetched_at = now) ∧
    (∀ cs r, alookup s.observations (st, d) = some r →
      ∃ r', alookup (applyObsCalls s cs).observations (st, d) = some r' ∧
        obs_priority r.source ≤ obs_priority r'.source) := by
  refine ⟨?_, ?_, ?_, ?_⟩
  · intro r0 h0 hp
    unfold upsert_observation
    rw [hleg]
    simp only [Bool.false_eq_true, if_false, h0, hp, if_true]
    simp [alookup_updateKey, h0]
  · intro r0 h0 hp
    unfold upsert_observation
    rw [hleg]
    have hp' : ¬ (obs_priority src < obs_priority r0.source) := not_lt.mpr hp
    simp only [Bool.false_eq_true, if_false, h0, hp', if_false]
    exact ⟨obsWriteRow oh ol ia rt src now (alookup s.observations (st, d)),
      by simp [alookup_setKey], rfl, rfl, rfl, rfl⟩
  · intro h0
    unfold upsert_observation
    rw [hleg]
    simp only [Bool.false_eq_true, if_false, h0]
    exact ⟨obsWriteRow oh ol ia rt src now (alookup s.observations (st, d)),
      by simp [alookup_setKey], rfl, rfl, rfl, rfl⟩
  · intro cs r hk
    exact applyObsCalls_legacy_mono cs s hleg (st, d) r hk

/-- A legacy-schema store holding one official climate-report observation for
station KMDW on day 0, used to instantiate the authority theorems. -/
def obsSampleRow : ObsRow :=
  { observed_high := 29, observed_low := 17, issued_at := none,
    fetched_at := "t0", raw_text := none, source := "NWS_CLI" }

def obsSampleState : ObsState :=
  { hasRuns := false, hasV2 := false, observation_runs := [], nextObsRunId := 0,
    observations_v2 := [], observations := [(("KMDW", 0), obsSampleRow)] }

theorem upsert_observation_legacy_authority_witness :
    (obsSampleState.hasRuns && obsSampleState.hasV2) = false ∧
    alookup obsSampleState.observations ("KMDW", 0) = some obsSampleRow ∧
    obs_priority "nws_station_obs" < obs_priority obsSampleRow.source ∧
    alookup (upsert_observation "KMDW" 0 25 10 none none "nws_station_obs" "R" "t1"
        obsSampleState).observations ("KMDW", 0) =
      some { obsSampleRow with fetched_at := "t1" } :=
  ⟨by decide, by decide, by decide,
    (upsert_observation_legacy_authority obsSampleState (by decide) "KMDW" 0 25 10
      none none "nws_station_obs" "R" "t1").1 obsSampleRow (by decide) (by decide)⟩

theorem get_or_create_observation_run_binds (rit : String) (s : ObsState) :
    alookup (get_or_create_observation_run rit s).2.observation_runs rit =
      some (get_or_create_observation_run rit s).1 := by
  unfold get_or_create_observation_run
  cases halook : alookup s.observation_runs rit with
  | some rid => simp [halook]
  | none => simp [halook, alookup]

/-- C9: with the run-based snapshot schema present, `upsert_observation`
applies unconditionally: a second call for the same (run, station, date) key
overwrites values and source whatever the relative source authorities are
(in particular also when the second source has strictly lower authority). -/
theorem upsert_observation_v2_unconditional
    (s : ObsState) (hR : s.hasRuns = true) (hV : s.hasV2 = true)
    (st : String) (d : Int) (oh1 ol1 oh2 ol2 : ℚ) (ia1 ia2 rt1 rt2 : Option String)
    (src1 src2 rit now1 now2 : String) :
    ∃ r, alookup (upsert_observation st d oh2 ol2 ia2 rt2 src2 rit now2
        (upsert_observation st d oh1 ol1 ia1 rt1 src1 rit now1 s)).observations_v2
        ((get_or_create_observation_run rit s).1, st, d) = some r ∧
      r.observed_high = oh2 ∧ r.observed_low = ol2 ∧ r.source = src2 ∧
      r.fetched_at = now2 := by
  cases hg : get_or_create_observation_run rit s with
  | mk rid s1 =>
      have hcond : (s.hasRuns && s.hasV2) = true := by rw [hR, hV]; rfl
      have hs1runs : s1.hasRuns = s.hasRuns := by
        revert hg; unfold get_or_create_observation_run
        cases alookup s.observation_runs rit <;> intro hg <;>
          cases hg <;> rfl
      have hs1v2 : s1.hasV2 = s.hasV2 := by
        revert hg; unfold get_or_create_observation_run
        cases alookup s.observation_runs rit <;> intro hg <;>
          cases hg <;> rfl
      have hs1bind : alookup s1.observation_runs rit = some rid := by
        have := get_or_create_observation_run_binds rit s
        rw [hg] at this; exact this
      -- first call takes the v2 branch
      have h1 : upsert_observation st d oh1 ol1 ia1 rt1 src1 rit now1 s =
          { s1 with observations_v2 :=
              (setKey s1.observations_v2 (rid, st, d)
                (obsWriteRow oh1 ol1 ia1 rt1 src1 now1)) } := by
        unfold upsert_observation
        rw [hcond, hg]
        simp
      -- the state after the first call still binds the run and keeps the flags
      set s2 : ObsState :=
        { s1 with observations_v2 :=
            (setKey s1.observations_v2 (rid, st, d)
              (obsWriteRow oh1 ol1 ia1 rt1 src1 now1)) } with hs2
      have hcond2 : (s2.hasRuns && s2.hasV2) = true := by
        rw [hs2]; simpa [hs1runs, hs1v2] using hcond
      have hg2 : get_or_create_observation_run rit s2 = (rid, s2) := by
        unfold get_or_create_observation_run
        have : alookup s2.observation_runs rit = some rid := by
          rw [hs2]; exact hs1bind
        rw [this]
      have h2 : upsert_observation st d oh2 ol2 ia2 rt2 src2 rit now2 s2 =
          { s2 with observations_v2 :=
              (setKey s2.observations_v2 (rid, st, d)
                (obsWriteRow oh2 ol2 ia2 rt2 src2 now2)) } := by
        unfold upsert_observation
        rw [hcond2, hg2]
        simp
      rw [h1, h2]
      refine ⟨obsWriteRow oh2 ol2 ia2 rt2 src2 now2
        (alookup s2.observations_v2 (rid, st, d)), ?_, rfl, rfl, rfl, rfl⟩
      simp [alookup_setKey]

/-- A store with the run-based snapshot schema present and no rows yet. -/
def obsV2SampleState : ObsState :=
  { hasRuns := true, hasV2 := true, observation_runs := [], nextObsRunId := 7,
    observations_v2 := [], observations := [] }

theorem upsert_observation_v2_unconditional_witness :
    obsV2SampleState.hasRuns = true ∧ obsV2SampleState.hasV2 = true ∧
    obs_priority "nws_station_obs" < obs_priority "NWS_CLI" ∧
    (∃ r, alookup (upsert_observation "KMDW" 0 28 15 none none "nws_station_obs" "R" "t2"
        (upsert_observation "KMDW" 0 29 17 none none "NWS_CLI" "R" "t1"
          obsV2SampleState)).observations_v2
        ((get_or_create_observation_run "R" obsV2SampleState).1, "KMDW", 0) = some r ∧
      r.observed_high = 28 ∧ r.observed_low = 15 ∧ r.source = "nws_station_obs" ∧
      r.fetched_at = "t2") :=
  ⟨rfl, rfl, by decide,
    upsert_observation_v2_unconditional obsV2SampleState rfl rfl "KMDW" 0
      29 17 28 15 none none none none "NWS_CLI" "nws_station_obs" "R" "t1" "t2"⟩

/-! ## Forecast run registry (`src/db.py`: `get_or_create_forecast_run`) -/

/-- Number of rows holding a key (a uniqueness constraint keeps this ≤ 1). -/
def countKey {κ α : Type} [DecidableEq κ] (m : List (κ × α)) (k : κ) : Nat :=
  (m.filter (fun kv => decide (kv.1 = k))).length

theorem countKey_of_alookup_none {κ α : Type} [DecidableEq κ]
    (m : List (κ × α)) (k : κ) (h : alookup m k = none) : countKey m k = 0 := by
  induction m with
  | nil => rfl
  | cons kv t ih =>
      obtain ⟨k0, v0⟩ := kv
      by_cases h0 : k0 = k
      · rw [alookup, if_pos h0] at h; exact Option.noConfusion h
      · rw [alookup, if_neg h0] at h
        simp [countKey, h0] at ih ⊢
        exact ih h

theorem countKey_pos_of_alookup_some {κ α : Type} [DecidableEq κ]
    (m : List (κ × α)) (k : κ) (v : α) (h : alookup m k = some v) :
    1 ≤ countKey m k := by
  induction m with
  | nil => exact Option.noConfusion h
  | cons kv t ih =>
      obtain ⟨k0, v0⟩ := kv
      by_cases h0 : k0 = k
      · simp [countKey, h0]
      · rw [alookup, if_neg h0] at h
        simp [countKey, h0] at ih ⊢
        exact ih h

theorem countKey_cons_self {κ α : Type} [DecidableEq κ]
    (m : List (κ × α)) (k : κ) (v : α) :
    countKey (((k, v)) :: m) k = countKey m k + 1 := by
  simp [countKey]

/-- The forecast-run table (`public.forecast_runs`), keyed by the unique
(source, issued_at) pair, plus the id sequence backing `run_id`. -/
structure FcRunState where
  forecast_runs : List ((String × String) × Nat)
  nextRunId : Nat
deriving DecidableEq, Repr

/-- `get_or_create_forecast_run(source, issued_at)`: the atomic
`insert ... on conflict (source, issued_at) do update set source =
excluded.source returning run_id` upsert — the conflicting row keeps its
`run_id` (the update clause rewrites `source` with the identical value), a
fresh id is drawn from the sequence otherwise. -/
def get_or_create_forecast_run (source issued_at : String) (s : FcRunState) :
    Nat × FcRunState :=
  match alookup s.forecast_runs (source, issued_at) with
  | some rid => (rid, s)
  | none =>
      (s.nextRunId,
        { forecast_runs := ((source, issued_at), s.nextRunId) :: s.forecast_runs,
          nextRunId := s.nextRunId + 1 })

/-- Iterate further `get_or_create_forecast_run` calls on the state. -/
def repeatForecastRunCalls (source issued_at : String) : Nat → FcRunState → FcRunState
  | 0, s => s
  | n + 1, s =>
      repeatForecastRunCalls source issued_at n
        (get_or_create_forecast_run source issued_at s).2

theorem get_or_create_forecast_run_binds (src t : String) (s : FcRunState) :
    alookup (get_or_create_forecast_run src t s).2.forecast_runs (src, t) =
      some (get_or_create_forecast_run src t s).1 := by
  unfold get_or_create_forecast_run
  cases halook : alookup s.forecast_runs (src, t) with
  | some rid => simp [halook]
  | none => simp [halook, alookup]

theorem get_or_create_forecast_run_of_bound (src t : String) (s : FcRunState)
    (rid : Nat) (h : alookup s.forecast_runs (src, t) = some rid) :
    get_or_create_forecast_run src t s = (rid, s) := by
  unfold get_or_create_forecast_run
  rw [h]

/-- C4: the forecast-run registry is idempotent.  Starting from a store whose
uniqueness constraint holds for (source, issued_at) (at most one row), the
first call leaves exactly one run row for the pair, and every later call —
however many are interleaved — returns the same run_id and leaves the store
unchanged, so no duplicate runs are ever created. -/
theorem get_or_create_forecast_run_idempotent
    (s : FcRunState) (src t : String)
    (h : countKey s.forecast_runs (src, t) ≤ 1) :
    countKey (get_or_create_forecast_run src t s).2.forecast_runs (src, t) = 1 ∧
    ∀ n, get_or_create_forecast_run src t
        (repeatForecastRunCalls src t n (get_or_create_forecast_run src t s).2) =
      ((get_or_create_forecast_run src t s).1, (get_or_create_forecast_run src t s).2) := by
  constructor
  · unfold get_or_create_forecast_run
    cases halook : alookup s.forecast_runs (src, t) with
    | some rid =>
        have h1 := countKey_pos_of_alookup_some s.forecast_runs (src, t) rid halook
        exact le_antisymm h h1
    | none =>
        simp only
        rw [countKey_cons_self, countKey_of_alookup_none s.forecast_runs (src, t) halook]
  · have hfix : get_or_create_forecast_run src t (get_or_create_forecast_run src t s).2 =
        ((get_or_create_forecast_run src t s).1, (get_or_create_forecast_run src t s).2) :=
      get_or_create_forecast_run_of_bound src t _ _
        (get_or_create_forecast_run_binds src t s)
    intro n
    induction n with
    | zero => exact hfix
    | succ n ih =>
        have : repeatForecastRunCalls src t (n + 1) (get_or_create_forecast_run src t s).2 =
            repeatForecastRunCalls src t n (get_or_create_forecast_run src t s).2 := by
          rw [repeatForecastRunCalls, hfix]
        rw [this]
        exact ih

theorem get_or_create_forecast_run_idempotent_witness :
    countKey (FcRunState.mk [] 0).forecast_runs ("OME_BASE", "2026-02-01T12:00:00Z") ≤ 1 ∧
    countKey (get_or_create_forecast_run "OME_BASE" "2026-02-01T12:00:00Z"
        (FcRunState.mk [] 0)).2.forecast_runs ("OME_BASE", "2026-02-01T12:00:00Z") = 1 ∧
    ∀ n, get_or_create_forecast_run "OME_BASE" "2026-02-01T12:00:00Z"
        (repeatForecastRunCalls "OME_BASE" "2026-02-01T12:00:00Z" n
          (get_or_create_forecast_run "OME_BASE" "2026-02-01T12:00:00Z"
            (FcRunState.mk [] 0)).2) =
      ((get_or_create_forecast_run "OME_BASE" "2026-02-01T12:00:00Z" (FcRunState.mk [] 0)).1,
       (get_or_create_forecast_run "OME_BASE" "2026-02-01T12:00:00Z" (FcRunState.mk [] 0)).2) :=
  ⟨by decide,
    (get_or_create_forecast_run_idempotent (FcRunState.mk [] 0) "OME_BASE"
      "2026-02-01T12:00:00Z" (by decide)).1,
    (get_or_create_forecast_run_idempotent (FcRunState.mk [] 0) "OME_BASE"
      "2026-02-01T12:00:00Z" (by decide)).2⟩

/-! ## Error builder (`src/db.py`: `build_errors_for_date`) -/

/-- Observation columns read by the error builder. -/
structure ObsJoinRow where
  station_id : String
  date : Int
  observed_high : ℚ
  observed_low : ℚ
deriving DecidableEq, Repr

/-- One row of `public.forecasts_daily`. -/
structure DailyFcRow where
  run_id : Nat
  station_id : String
  target_date : Int
  high_f : Option ℚ
  low_f : Option ℚ
  lead_high_hours : Option ℚ
  lead_low_hours : Option ℚ
deriving DecidableEq, Repr

/-- One row of `public.forecast_runs` as read by the error builder. -/
structure FcRunRow where
  run_id : Nat
  source : String
  issued_at : String
deriving DecidableEq, Repr

/-- One row of the legacy `public.forecasts` table. -/
structure LegacyFcRow where
  run_id : Nat
  station_id : String
  target_date : Int
  kind : String
  value_f : Option ℚ
  lead_hours : Option ℚ
deriving DecidableEq, Repr

/-- One row of `public.forecast_errors` (without its `forecast_id` key). -/
structure ErrorRow where
  station_id : String
  source : String
  target_date : Int
  kind : String
  issued_at : String
  lead_hours : Option ℚ
  forecast_f : ℚ
  observed_f : ℚ
  error_f : ℚ
  abs_error_f : ℚ
deriving DecidableEq, Repr

/-- The slice of the store read and written by `build_errors_for_date`.
`hasLatest` and `hasDaily` model the `to_regclass` probes for
`public.observations_latest` and `public.forecasts_daily`. -/
structure ErrState where
  hasLatest : Bool
  observations_latest : List ObsJoinRow
  observations : List ObsJoinRow
  hasDaily : Bool
  forecasts_daily : List DailyFcRow
  forecast_runs_rows : List FcRunRow
  forecasts : List LegacyFcRow
  forecast_errors : List (String × ErrorRow)
deriving DecidableEq, Repr

/-- `insert ... on conflict (forecast_id) do nothing`. -/
def insertIfAbsent {α : Type} (m : List (String × α)) (kv : String × α) :
    List (String × α) :=
  match alookup m kv.1 with
  | some _ => m
  | none => kv :: m

/-- `forecast_id = f"{run_id}|{station_id}|{target_date}|{kind}"`. -/
def errorKey (run_id : Nat) (station_id : String) (target_date : Int)
    (kind : String) : String :=
  toString run_id ++ "|" ++ station_id ++ "|" ++ toString target_date ++ "|" ++ kind

/-- The keyed error rows one observation row generates from
`public.forecasts_daily` joined with `public.forecast_runs`: one "high" row per
non-null `high_f` and one "low" row per non-null `low_f`. -/
def dailyCandidates (s : ErrState) (target_date : Int) (o : ObsJoinRow) :
    List (String × ErrorRow) :=
  (s.forecasts_daily.filter
      (fun dr => decide (dr.station_id = o.station_id ∧ dr.target_date = target_date))).flatMap
    (fun dr =>
      (s.forecast_runs_rows.filter (fun r => decide (r.run_id = dr.run_id))).flatMap
        (fun r =>
          (match dr.high_f with
            | some hf =>
                [(errorKey dr.run_id o.station_id target_date "high",
                  { station_id := o.station_id, source := r.source,
                    target_date := target_date, kind := "high",
                    issued_at := r.issued_at, lead_hours := dr.lead_high_hours,
                    forecast_f := hf, observed_f := o.observed_high,
                    error_f := hf - o.observed_high,
                    abs_error_f := |hf - o.observed_high| })]
            | none => []) ++
          (match dr.low_f with
            | some lf =>
                [(errorKey dr.run_id o.station_id target_date "low",
                  { station_id := o.station_id, source := r.source,
                    target_date := target_date, kind := "low",
                    issued_at := r.issued_at, lead_hours := dr.lead_low_hours,
                    forecast_f := lf, observed_f := o.observed_low,
                    error_f := lf - o.observed_low,
                    abs_error_f := |lf - o.observed_low| })]
            | none => [])))

/-- The keyed error rows one observation row generates on the legacy path
(`public.forecasts` joined with `public.forecast_runs`); rows with a null
`value_f` are skipped. -/
def legacyCandidates (s : ErrState) (target_date : Int) (o : ObsJoinRow) :
    List (String × ErrorRow) :=
  (s.forecasts.filter
      (fun f => decide (f.station_id = o.station_id ∧ f.target_date = target_date))).flatMap
    (fun f =>
      (s.forecast_runs_rows.filter (fun r => decide (r.run_id = f.run_id))).flatMap
        (fun r =>
          match f.value_f with
          | some vf =>
              [(errorKey f.run_id o.station_id target_date f.kind,
                { station_id := o.station_id, source := r.source,
                  target_date := target_date, kind := f.kind,
                  issued_at := r.issued_at, lead_hours := f.lead_hours,
                  forecast_f := vf,
                  observed_f := if f.kind = "high" then o.observed_high else o.observed_low,
                  error_f :=
                    vf - (if f.kind = "high" then o.observed_high else o.observed_low),
                  abs_error_f :=
                    |vf - (if f.kind = "high" then o.observed_high else o.observed_low)| })]
          | none => []))

/-- The observation rows selected for the target date (from
`observations_latest` when that table exists, else from `observations`). -/
def obsRowsFor (s : ErrState) (d : Int) : List ObsJoinRow :=
  if s.hasLatest then s.observations_latest.filter (fun o => decide (o.date = d))
  else s.observations.filter (fun o => decide (o.date = d))

/-- All keyed error rows one `build_errors_for_date` invocation attempts to
insert, in loop order. -/
def errorCandidates (s : ErrState) (d : Int) : List (String × ErrorRow) :=
  (obsRowsFor s d).flatMap
    (fun o => if s.hasDaily then dailyCandidates s d o else legacyCandidates s d o)

/-- `build_errors_for_date(target_date)`: returns 0 untouched when no
observation exists for the date; otherwise attempts an
insert-if-absent per candidate row and returns the number of attempts
(the Python `wrote` counter is incremented for every candidate,
conflicting or not). -/
def build_errors_for_date (d : Int) (s : ErrState) : Nat × ErrState :=
  if obsRowsFor s d = [] then (0, s)
  else
    ((errorCandidates s d).length,
      { s with forecast_errors :=
          (errorCandidates s d).foldl insertIfAbsent s.forecast_errors })

theorem isSome_alookup_of_mem {κ α : Type} [DecidableEq κ]
    (m : List (κ × α)) (kv : κ × α) (hkv : kv ∈ m) :
    (alookup m kv.1).isSome := by
  induction m with
  | nil => exact absurd hkv (List.not_mem_nil _)
  | cons e t ihm =>
      rcases List.mem_cons.mp hkv with he | he
      · subst he; simp [alookup]
      · by_cases hfe : e.1 = kv.1
        · simp [alookup, hfe]
        · simpa [alookup, hfe] using ihm he

theorem alookup_insertIfAbsent_of_isSome {α : Type} (m : List (String × α))
    (kv : String × α) (k : String) (h : (alookup m k).isSome) :
    alookup (insertIfAbsent m kv) k = alookup m k := by
  unfold insertIfAbsent
  cases hb : alookup m kv.1 with
  | some v => rfl
  | none =>
      have hne : ¬ (kv.1 = k) := by
        intro he
        rw [← he, hb] at h
        exact Bool.noConfusion h
      simp [alookup, hne]

theorem alookup_foldl_insertIfAbsent_of_isSome {α : Type}
    (cs : List (String × α)) (m : List (String × α)) (k : String)
    (h : (alookup m k).isSome) :
    alookup (cs.foldl insertIfAbsent m) k = alookup m k := by
  induction cs generalizing m with
  | nil => rfl
  | cons c cs ih =>
      have hstep := alookup_insertIfAbsent_of_isSome m c k h
      have h' : (alookup (insertIfAbsent m c) k).isSome := by rw [hstep]; exact h
      rw [List.foldl_cons, ih (insertIfAbsent m c) h', hstep]

theorem isSome_insertIfAbsent_self {α : Type} (m : List (String × α))
    (kv : String × α) : (alookup (insertIfAbsent m kv) kv.1).isSome := by
  unfold insertIfAbsent
  cases hb : alookup m kv.1 with
  | some v => rw [hb]; rfl
  | none => simp [alookup]

theorem isSome_foldl_insertIfAbsent {α : Type} (cs : List (String × α))
    (m : List (String × α)) (kv : String × α) (hmem : kv ∈ cs) :
    (alookup (cs.foldl insertIfAbsent m) kv.1).isSome := by
  induction cs generalizing m with
  | nil => exact absurd hmem (List.not_mem_nil _)
  | cons c cs ih =>
      rw [List.foldl_cons]
      rcases List.mem_cons.mp hmem with hc | hc
      · subst hc
        have h0 := isSome_insertIfAbsent_self m kv
        have := alookup_foldl_insertIfAbsent_of_isSome cs (insertIfAbsent m kv) kv.1 h0
        rw [this]
        exact h0
      · exact ih (insertIfAbsent m c) hc

theorem foldl_insertIfAbsent_stable {α : Type} (cs : List (String × α))
    (m : List (String × α)) (h : ∀ kv ∈ cs, (alookup m kv.1).isSome) :
    cs.foldl insertIfAbsent m = m := by
  induction cs with
  | nil => rfl
  | cons c cs ih =>
      have hc := h c (List.mem_cons_self c cs)
      have hm : insertIfAbsent m c = m := by
        unfold insertIfAbsent
        cases hb : alookup m c.1 with
        | some v => rfl
        | none => rw [hb] at hc; exact Bool.noConfusion hc
      rw [List.foldl_cons, hm, ih (fun kv hkv => h kv (List.mem_cons_of_mem c hkv))]

theorem obsRowsFor_build (d d' : Int) (s : ErrState) :
    obsRowsFor (build_errors_for_date d s).2 d' = obsRowsFor s d' := by
  unfold build_errors_for_date
  by_cases h : obsRowsFor s d = []
  · rw [if_pos h]
  · rw [if_neg h]; rfl

theorem errorCandidates_build (d d' : Int) (s : ErrState) :
    errorCandidates (build_errors_for_date d s).2 d' = errorCandidates s d' := by
  unfold build_errors_for_date
  by_cases h : obsRowsFor s d = []
  · rw [if_pos h]
  · rw [if_neg h]; rfl

theorem errors_build (d : Int) (s : ErrState) :
    (build_errors_for_date d s).2.forecast_errors =
      if obsRowsFor s d = [] then s.forecast_errors
      else (errorCandidates s d).foldl insertIfAbsent s.forecast_errors := by
  unfold build_errors_for_date
  by_cases h : obsRowsFor s d = []
  · rw [if_pos h, if_pos h]
  · rw [if_neg h, if_neg h]

theorem build_errors_table_stable (s : ErrState) (d : Int) :
    (build_errors_for_date d (build_errors_for_date d s).2).2.forecast_errors =
      (build_errors_for_date d s).2.forecast_errors := by
  rw [errors_build d (build_errors_for_date d s).2, obsRowsFor_build,
    errorCandidates_build]
  by_cases h : obsRowsFor s d = []
  · simp [h]
  · rw [if_neg h, errors_build d s, if_neg h]
    apply foldl_insertIfAbsent_stable
    intro kv hkv
    exact isSome_foldl_insertIfAbsent (errorCandidates s d) s.forecast_errors kv hkv

/-- C2: forecast-error rows are write-once.  Running
`build_errors_for_date d` a second time leaves the error table exactly as
after the first run; any error row already stored under a key — whatever the
rest of the store now holds, e.g. after a forecast revision under the same
run id — is left byte-for-byte unchanged by an invocation; and the error
table never acquires a duplicate key. -/
theorem build_errors_for_date_write_once (s : ErrState) (d : Int) :
    (build_errors_for_date d (build_errors_for_date d s).2).2.forecast_errors =
      (build_errors_for_date d s).2.forecast_errors ∧
    (∀ k, (alookup s.forecast_errors k).isSome →
      alookup (build_errors_for_date d s).2.forecast_errors k =
        alookup s.forecast_errors k) ∧
    ((s.forecast_errors.map Prod.fst).Nodup →
      ((build_errors_for_date d s).2.forecast_errors.map Prod.fst).Nodup) := by
  refine ⟨build_errors_table_stable s d, ?_, ?_⟩
  · intro k hk
    rw [errors_build d s]
    by_cases h : obsRowsFor s d = []
    · rw [if_pos h]
    · rw [if_neg h]
      exact alookup_foldl_insertIfAbsent_of_isSome (errorCandidates s d)
        s.forecast_errors k hk
  · intro hnd
    rw [errors_build d s]
    by_cases h : obsRowsFor s d = []
    · rwa [if_pos h]
    · rw [if_neg h]
      have : ∀ (cs : List (String × ErrorRow)) (m : List (String × ErrorRow)),
          (m.map Prod.fst).Nodup → ((cs.foldl insertIfAbsent m).map Prod.fst).Nodup := by
        intro cs
        induction cs with
        | nil => intro m hm; exact hm
        | cons c cs ih =>
            intro m hm
            rw [List.foldl_cons]
            apply ih
            unfold insertIfAbsent
            cases hb : alookup m c.1 with
            | some v => exact hm
            | none =>
                rw [List.map_cons, List.nodup_cons]
                refine ⟨?_, hm⟩
                intro hmem
                obtain ⟨kv, hkv, hfst⟩ := List.mem_map.mp hmem
                have hks : (alookup m c.1).isSome := by
                  rw [← hfst]
                  exact isSome_alookup_of_mem m kv hkv
                rw [hb] at hks
                exact Bool.noConfusion hks
      exact this (errorCandidates s d) s.forecast_errors hnd

/-- A store with one observation and one forecast run for day 0, matching the
scenario in the spec (KMDW, NWS_CLI, high 30/low 18 vs observed 29.4/17.1). -/
def errSampleState : ErrState :=
  { hasLatest := false, observations_latest := [],
    observations := [⟨"KMDW", 0, 294/10, 171/10⟩],
    hasDaily := true,
    forecasts_daily := [⟨1, "KMDW", 0, some 30, some 18, none, none⟩],
    forecast_runs_rows := [⟨1, "NWS_CLI", "t"⟩],
    forecasts := [], forecast_errors := [] }

theorem build_errors_for_date_write_once_witness :
    (alookup errSampleState.forecast_errors "k").isSome = false ∧
    (build_errors_for_date 0
        (build_errors_for_date 0 errSampleState).2).2.forecast_errors =
      (build_errors_for_date 0 errSampleState).2.forecast_errors ∧
    ((build_errors_for_date 0 errSampleState).2.forecast_errors.map Prod.fst).Nodup :=
  ⟨by decide,
    (build_errors_for_date_write_once errSampleState 0).1,
    (build_errors_for_date_write_once errSampleState 0).2.2 (by decide)⟩

theorem count_build (d : Int) (s : ErrState) :
    (build_errors_for_date d s).1 =
      if obsRowsFor s d = [] then 0 else (errorCandidates s d).length := by
  unfold build_errors_for_date
  by_cases h : obsRowsFor s d = []
  · rw [if_pos h, if_pos h]
  · rw [if_neg h, if_neg h]

/-- C3 counterexample: on a store already holding the error rows for day 0,
`build_errors_for_date 0` writes nothing (the error table is unchanged) yet
still returns 2, not the number of rows actually written (0).  The returned
counter counts attempted inserts, conflicting or not. -/
theorem build_errors_for_date_count_counterexample :
    (build_errors_for_date 0
        (build_errors_for_date 0 errSampleState).2).2.forecast_errors =
      (build_errors_for_date 0 errSampleState).2.forecast_errors ∧
    (build_errors_for_date 0 (build_errors_for_date 0 errSampleState).2).1 = 2 ∧
    (build_errors_for_date 0 (build_errors_for_date 0 errSampleState).2).1 ≠ 0 :=
  ⟨build_errors_table_stable errSampleState 0, by decide, by decide⟩

/-- C3 (amended): `build_errors_for_date d` returns the number of candidate
error rows it attempts to insert, so a second consecutive call writes zero new
rows — the error table is unchanged — but returns the same count as the first
call rather than the number of rows actually written. -/
theorem build_errors_for_date_second_call (s : ErrState) (d : Int) :
    (build_errors_for_date d (build_errors_for_date d s).2).1 =
      (build_errors_for_date d s).1 ∧
    (build_errors_for_date d (build_errors_for_date d s).2).2.forecast_errors =
      (build_errors_for_date d s).2.forecast_errors := by
  constructor
  · rw [count_build d (build_errors_for_date d s).2, obsRowsFor_build,
      errorCandidates_build, count_build d s]
  · exact build_errors_table_stable s d

/-! ## Percentile (`src/db.py`: `_percentile`) -/

/-- `_percentile(sorted_vals, p)`.  `none` models the `float("nan")` returned
for an empty list.  Python's `int(k)` truncates toward zero; for the
nonnegative fractional ranks `k = (n - 1) * p` arising from `p ≥ 0` this is
the floor, embedded as `⌊k⌋.toNat`. -/
def percentile (sorted_vals : List ℚ) (p : ℚ) : Option ℚ :=
  if sorted_vals = [] then none
  else if sorted_vals.length = 1 then some (sorted_vals.getD 0 0)
  else
    let k : ℚ := ((sorted_vals.length - 1 : ℕ) : ℚ) * p
    let f : ℕ := ⌊k⌋.toNat
    let c : ℕ := min (f + 1) (sorted_vals.length - 1)
    if f = c then some (sorted_vals.getD f 0)
    else some (sorted_vals.getD f 0 * ((c : ℚ) - k) + sorted_vals.getD c 0 * (k - (f : ℚ)))

theorem percentile_eq_of_long (l : List ℚ) (p : ℚ) (h1 : l ≠ []) (h2 : l.length ≠ 1) :
    percentile l p =
      if (⌊((l.length - 1 : ℕ) : ℚ) * p⌋.toNat) =
          min (⌊((l.length - 1 : ℕ) : ℚ) * p⌋.toNat + 1) (l.length - 1) then
        some (l.getD (⌊((l.length - 1 : ℕ) : ℚ) * p⌋.toNat) 0)
      else
        some (l.getD (⌊((l.length - 1 : ℕ) : ℚ) * p⌋.toNat) 0 *
            (((min (⌊((l.length - 1 : ℕ) : ℚ) * p⌋.toNat + 1) (l.length - 1) : ℕ) : ℚ) -
              ((l.length - 1 : ℕ) : ℚ) * p) +
          l.getD (min (⌊((l.length - 1 : ℕ) : ℚ) * p⌋.toNat + 1) (l.length - 1)) 0 *
            (((l.length - 1 : ℕ) : ℚ) * p -
              ((⌊((l.length - 1 : ℕ) : ℚ) * p⌋.toNat : ℕ) : ℚ))) := by
  unfold percentile
  rw [if_neg h1, if_neg h2]

/-- C5: `_percentile` computes the linear-interpolation order statistic with
fractional rank `(n - 1) * p`: on any sorted non-empty list with `0 ≤ p ≤ 1`
it returns a value lying between the two bracketing order statistics at
indices `⌊(n-1)p⌋` and `min(⌊(n-1)p⌋ + 1, n - 1)`, and on `[-2, -1, 0, 1, 5]`
it returns p50 = 0, p10 = -1.6 and p90 = 3.4, the hand-computed
linear-interpolation values. -/
theorem percentile_linear_interpolation (l : List ℚ) (p : ℚ)
    (hs : l.Sorted (· ≤ ·)) (hne : l ≠ []) (hp0 : 0 ≤ p) (hp1 : p ≤ 1) :
    (∃ v, percentile l p = some v ∧
      l.getD (⌊((l.length - 1 : ℕ) : ℚ) * p⌋.toNat) 0 ≤ v ∧
      v ≤ l.getD (min (⌊((l.length - 1 : ℕ) : ℚ) * p⌋.toNat + 1) (l.length - 1)) 0) ∧
    percentile [-2, -1, 0, 1, 5] (50/100) = some 0 ∧
    percentile [-2, -1, 0, 1, 5] (10/100) = some (-16/10) ∧
    percentile [-2, -1, 0, 1, 5] (90/100) = some (34/10) := by
  refine ⟨?_, ?_, ?_, ?_⟩
  · by_cases hlen1 : l.length = 1
    · have hk : ((l.length - 1 : ℕ) : ℚ) * p = 0 := by
        rw [hlen1]; norm_num
      have hf : ⌊((l.length - 1 : ℕ) : ℚ) * p⌋.toNat = 0 := by
        rw [hk]; norm_num
      have hc : min (⌊((l.length - 1 : ℕ) : ℚ) * p⌋.toNat + 1) (l.length - 1) = 0 := by
        rw [hf, hlen1]
        rfl
      refine ⟨l.getD 0 0, ?_, ?_, ?_⟩
      · unfold percentile
        rw [if_neg hne, if_pos hlen1]
      · rw [hf]
      · rw [hc]
    · rw [percentile_eq_of_long l p hne hlen1]
      have hlen0 : l.length ≠ 0 := fun h => hne (List.length_eq_zero.mp h)
      have hlen2 : 2 ≤ l.length := by omega
      set n := l.length with hn
      set k : ℚ := ((n - 1 : ℕ) : ℚ) * p with hkdef
      set f : ℕ := ⌊k⌋.toNat with hfdef
      have hk0 : 0 ≤ k := mul_nonneg (Nat.cast_nonneg _) hp0
      have hfloor0 : 0 ≤ ⌊k⌋ := Int.floor_nonneg.mpr hk0
      have hfk : (f : ℚ) ≤ k := by
        rw [hfdef]
        rw [show ((⌊k⌋.toNat : ℕ) : ℚ) = ((⌊k⌋.toNat : ℤ) : ℚ) by push_cast; ring]
        rw [Int.toNat_of_nonneg hfloor0]
        exact Int.floor_le k
      have hkf1 : k < (f : ℚ) + 1 := by
        rw [hfdef]
        rw [show ((⌊k⌋.toNat : ℕ) : ℚ) = ((⌊k⌋.toNat : ℤ) : ℚ) by push_cast; ring]
        rw [Int.toNat_of_nonneg hfloor0]
        exact Int.lt_floor_add_one k
      have hkle : k ≤ ((n - 1 : ℕ) : ℚ) := by
        rw [hkdef]
        calc ((n - 1 : ℕ) : ℚ) * p ≤ ((n - 1 : ℕ) : ℚ) * 1 :=
              mul_le_mul_of_nonneg_left hp1 (Nat.cast_nonneg _)
        _ = ((n - 1 : ℕ) : ℚ) := mul_one _
      have hfle : f ≤ n - 1 := by
        rw [hfdef]
        rw [Int.toNat_le]
        have : ⌊k⌋ ≤ ⌊((n - 1 : ℕ) : ℚ)⌋ := Int.floor_le_floor hkle
        rwa [Int.floor_natCast] at this
      by_cases hfc : f = min (f + 1) (n - 1)
      · rw [if_pos hfc]
        exact ⟨l.getD f 0, rfl, le_refl _, by rw [← hfc]⟩
      · rw [if_neg hfc]
        have hc1 : f + 1 ≤ n - 1 := by
          rcases Nat.lt_or_ge (n - 1) (f + 1) with h | h
          · exfalso
            have : min (f + 1) (n - 1) = n - 1 := min_eq_right (Nat.le_of_lt h)
            rw [this] at hfc
            have : n - 1 = f := Nat.le_antisymm (Nat.lt_succ_iff.mp h) hfle
            exact hfc this.symm
          · exact h
        have hcmin : min (f + 1) (n - 1) = f + 1 := min_eq_left hc1
        rw [hcmin]
        have hfn : f < n := by omega
        have hcn : f + 1 < n := by omega
        have hab : l.getD f 0 ≤ l.getD (f + 1) 0 := by
          rw [List.getD_eq_getElem l 0 hfn, List.getD_eq_getElem l 0 hcn]
          have := List.Sorted.rel_get_of_le hs
            (a := ⟨f, hfn⟩) (b := ⟨f + 1, hcn⟩) (by exact Nat.le_succ f)
          simpa using this
        refine ⟨_, rfl, ?_, ?_⟩
        · have hw : (0 : ℚ) ≤ k - (f : ℚ) := sub_nonneg.mpr hfk
          have hd : (0 : ℚ) ≤ l.getD (f + 1) 0 - l.getD f 0 := sub_nonneg.mpr hab
          push_cast
          nlinarith [mul_nonneg hw hd]
        · have hw : (0 : ℚ) ≤ (f : ℚ) + 1 - k := by linarith
          have hd : (0 : ℚ) ≤ l.getD (f + 1) 0 - l.getD f 0 := sub_nonneg.mpr hab
          push_cast
          nlinarith [mul_nonneg hw hd]
  · norm_num [percentile]
    refine ⟨by simp, ?_⟩
    norm_num [show Int.toNat 2 = 2 from rfl, List.getD]
  · norm_num [percentile]
    intro h
    exact absurd h (by simp)
  · norm_num [percentile]
    refine ⟨by simp, ?_⟩
    norm_num [show Int.toNat 3 = 3 from rfl, List.getD]

theorem percentile_linear_interpolation_witness :
    ([(-2 : ℚ), -1, 0, 1, 5].Sorted (· ≤ ·)) ∧
    ([(-2 : ℚ), -1, 0, 1, 5] ≠ []) ∧ ((0 : ℚ) ≤ 1/2) ∧ ((1 : ℚ)/2 ≤ 1) ∧
    ((∃ v, percentile [-2, -1, 0, 1, 5] (1/2) = some v ∧
      [(-2 : ℚ), -1, 0, 1, 5].getD
        (⌊(([(-2 : ℚ), -1, 0, 1, 5].length - 1 : ℕ) : ℚ) * (1/2)⌋.toNat) 0 ≤ v ∧
      v ≤ [(-2 : ℚ), -1, 0, 1, 5].getD
        (min (⌊(([(-2 : ℚ), -1, 0, 1, 5].length - 1 : ℕ) : ℚ) * (1/2)⌋.toNat + 1)
          ([(-2 : ℚ), -1, 0, 1, 5].length - 1)) 0) ∧
      percentile [-2, -1, 0, 1, 5] (50/100) = some 0 ∧
      percentile [-2, -1, 0, 1, 5] (10/100) = some (-16/10) ∧
      percentile [-2, -1, 0, 1, 5] (90/100) = some (34/10)) :=
  ⟨by norm_num [List.sorted_cons], by simp, by norm_num, by norm_num,
    percentile_linear_interpolation [-2, -1, 0, 1, 5] (1/2)
      (by norm_num [List.sorted_cons]) (by simp) (by norm_num) (by norm_num)⟩

/-! ## Stats aggregator (`src/db.py`: `update_error_stats`) -/

/-- One row of `public.forecast_errors` as read by the stats pass (nullable
columns are `Option`; the SQL date filter never selects a null date, so
`target_date` is plain). -/
structure ErrStatsRow where
  station_id : Option String
  source : Option String
  kind : Option String
  target_date : Int
  error_f : Option ℚ
  abs_error_f : Option ℚ
deriving DecidableEq, Repr

/-- One row of `public.error_stats` (without its key).  Columns that the
"both" insert leaves out are nullable.  The code stores
`rmse = (sum e² / n) ** 0.5`; `rmse_sq` holds the radicand, an
information-equivalent representation since squaring is injective on the
nonnegative reals. -/
structure StatsRow where
  n : Nat
  bias : Option ℚ
  mae : ℚ
  rmse_sq : Option ℚ
  p10 : Option ℚ
  p50 : Option ℚ
  p90 : Option ℚ
  last_updated : String
deriving DecidableEq, Repr

/-- `(station_id, source, kind, window_days)`, the conflict key of
`public.error_stats`. -/
abbrev StatsKey : Type := String × String × String × Int

/-- One entry of the Python `by` dict: a row whose five used columns are all
non-null. -/
structure ValidRow where
  station : String
  source : String
  kind : String
  e : ℚ
  ae : ℚ
deriving DecidableEq, Repr

/-- Python truthiness of the `station_id` argument (`if station_id:`):
false for `None` and for the empty string. -/
def pyTruthy (s : Option String) : Bool :=
  match s with
  | none => false
  | some v => decide (v ≠ "")

/-- The inputs of one `update_error_stats` call: its two arguments plus the
ambient `now()::date` (as a day number), the `utc_now_z()` timestamp, and the
`forecast_errors` table it reads. -/
structure StatsInput where
  window_days : Int
  station_id : Option String
  today : Int
  now_ts : String
  forecast_errors : List ErrStatsRow
deriving DecidableEq, Repr

/-- The SQL row selection: `target_date >= now()::date - window_days * 1 day`,
plus `and station_id = %s` when the argument is truthy. -/
def statsFilteredRows (inp : StatsInput) : List ErrStatsRow :=
  inp.forecast_errors.filter
    (fun r =>
      decide (inp.today - inp.window_days ≤ r.target_date) &&
      (if pyTruthy inp.station_id then decide (r.station_id = inp.station_id) else true))

/-- The rows entering the `by` dict: any of the five used columns being null
drops the row. -/
def statsValidRows (inp : StatsInput) : List ValidRow :=
  (statsFilteredRows inp).filterMap
    (fun r =>
      match r.station_id, r.source, r.kind, r.error_f, r.abs_error_f with
      | some st, some src, some kd, some e, some ae =>
          some { station := st, source := src, kind := kd, e := e, ae := ae }
      | _, _, _, _, _ => none)

/-- `by[(station, source, kind)]`: the (error, abs_error) samples of one
group. -/
def statsGroup (inp : StatsInput) (key : String × String × String) : List (ℚ × ℚ) :=
  (statsValidRows inp).filterMap
    (fun v => if (v.station, v.source, v.kind) = key then some (v.e, v.ae) else none)

/-- The group keys of the `by` dict (each present at least once; the final
store contents do not depend on their order since keys are distinct). -/
def statsGroupKeys (inp : StatsInput) : List (String × String × String) :=
  ((statsValidRows inp).map (fun v => (v.station, v.source, v.kind))).dedup

/-- `stations_sources = sorted({(k[0], k[1]) for k in by})`. -/
def statsPairs (inp : StatsInput) : List (String × String) :=
  ((statsValidRows inp).map (fun v => (v.station, v.source))).dedup

/-- `sum(...) / len(...)` over the second components (the MAE of a group). -/
def maeOf (vals : List (ℚ × ℚ)) : ℚ :=
  (vals.map Prod.snd).sum / (vals.length : ℚ)

/-- The full stats row computed for one (station, source, kind) group:
bias, MAE, RMSE (as its square), and p10/p50/p90 of the ascending-sorted
signed errors. -/
def statsRowFor (vals : List (ℚ × ℚ)) (now_ts : String) : StatsRow :=
  let n := vals.length
  let errors := vals.map Prod.fst
  let abs_errors := vals.map Prod.snd
  let se := List.insertionSort (· ≤ ·) errors
  { n := n
    bias := some (errors.sum / (n : ℚ))
    mae := abs_errors.sum / (n : ℚ)
    rmse_sq := some ((errors.map (fun x => x * x)).sum / (n : ℚ))
    p10 := percentile se (10/100)
    p50 := percentile se (50/100)
    p90 := percentile se (90/100)
    last_updated := now_ts }

/-- The "both" upsert: the insert provides only n, mae and last_updated
(other columns null); the conflict update rewrites exactly those three fields
and keeps the rest of an existing row. -/
def bothMerge (n : Nat) (mae : ℚ) (now_ts : String) (old : Option StatsRow) : StatsRow :=
  match old with
  | some o => { o with n := n, mae := mae, last_updated := now_ts }
  | none =>
      { n := n, bias := none, mae := mae, rmse_sq := none,
        p10 := none, p50 := none, p90 := none, last_updated := now_ts }

/-- One iteration of phase 1 of `update_error_stats`: the full-row upsert for
one group key. -/
def mainStep (inp : StatsInput) (acc : List (StatsKey × StatsRow))
    (gk : String × String × String) : List (StatsKey × StatsRow) :=
  setKey acc (gk.1, gk.2.1, gk.2.2, inp.window_days)
    (fun _ => statsRowFor (statsGroup inp gk) inp.now_ts)

/-- Phase 1 of `update_error_stats`: one full-row upsert per group. -/
def statsMainFold (inp : StatsInput) (m : List (StatsKey × StatsRow)) :
    List (StatsKey × StatsRow) :=
  (statsGroupKeys inp).foldl (mainStep inp) m

/-- One iteration of phase 2 of `update_error_stats`: the "both" pseudo-kind
upsert for one (station, source) pair, skipped when either kind has no
samples. -/
def bothStep (inp : StatsInput) (acc : List (StatsKey × StatsRow))
    (pr : String × String) : List (StatsKey × StatsRow) :=
  let highs := statsGroup inp (pr.1, pr.2, "high")
  let lows := statsGroup inp (pr.1, pr.2, "low")
  if highs = [] ∨ lows = [] then acc
  else
    setKey acc (pr.1, pr.2, "both", inp.window_days)
      (bothMerge (min highs.length lows.length)
        ((maeOf highs + maeOf lows) / 2) inp.now_ts)

/-- Phase 2 of `update_error_stats`. -/
def statsBothFold (inp : StatsInput) (m : List (StatsKey × StatsRow)) :
    List (StatsKey × StatsRow) :=
  (statsPairs inp).foldl (bothStep inp) m

/-- The pairs for which phase 2 actually writes a "both" row. -/
def statsBothWritten (inp : StatsInput) : List (String × String) :=
  (statsPairs inp).filter
    (fun pr =>
      decide (statsGroup inp (pr.1, pr.2, "high") ≠ []) &&
      decide (statsGroup inp (pr.1, pr.2, "low") ≠ []))

/-- `update_error_stats(window_days, station_id)` as a function from the
error table and the previous `error_stats` table to the new `error_stats`
table. -/
def update_error_stats (inp : StatsInput) (error_stats : List (StatsKey × StatsRow)) :
    List (StatsKey × StatsRow) :=
  statsBothFold inp (statsMainFold inp error_stats)

theorem mem_statsPairs_of_group_ne (inp : StatsInput) (st src kd : String)
    (h : statsGroup inp (st, src, kd) ≠ []) : (st, src) ∈ statsPairs inp := by
  obtain ⟨x, hx⟩ := List.exists_mem_of_ne_nil _ h
  unfold statsGroup at hx
  obtain ⟨v, hv, hfv⟩ := List.mem_filterMap.mp hx
  by_cases hcond : (v.station, v.source, v.kind) = (st, src, kd)
  · have h1 : v.station = st := congrArg Prod.fst hcond
    have h2 : v.source = src := congrArg Prod.fst (congrArg Prod.snd hcond)
    unfold statsPairs
    exact List.mem_dedup.mpr (List.mem_map.mpr ⟨v, hv, by rw [h1, h2]⟩)
  · rw [if_neg hcond] at hfv
    exact Option.noConfusion hfv

theorem mem_statsGroupKeys_iff (inp : StatsInput) (gk : String × String × String) :
    gk ∈ statsGroupKeys inp ↔ statsGroup inp gk ≠ [] := by
  constructor
  · intro hmem
    obtain ⟨v, hv, hvk⟩ := List.mem_map.mp (List.mem_dedup.mp hmem)
    apply List.ne_nil_of_mem (a := (v.e, v.ae))
    unfold statsGroup
    exact List.mem_filterMap.mpr ⟨v, hv, by rw [if_pos hvk]⟩
  · intro h
    obtain ⟨x, hx⟩ := List.exists_mem_of_ne_nil _ h
    unfold statsGroup at hx
    obtain ⟨v, hv, hfv⟩ := List.mem_filterMap.mp hx
    by_cases hcond : (v.station, v.source, v.kind) = gk
    · exact List.mem_dedup.mpr (List.mem_map.mpr ⟨v, hv, hcond⟩)
    · rw [if_neg hcond] at hfv
      exact Option.noConfusion hfv

theorem alookup_setKey_isSome {κ α : Type} [DecidableEq κ]
    (m : List (κ × α)) (k k' : κ) (f : Option α → α)
    (h : (alookup m k').isSome) : (alookup (setKey m k f) k').isSome := by
  rw [alookup_setKey]
  by_cases hk : k' = k
  · rw [if_pos hk]; rfl
  · rw [if_neg hk]; exact h

theorem foldl_mainStep_frame (inp : StatsInput) (gks : List (String × String × String))
    (m : List (StatsKey × StatsRow)) (st src kd : String) (wd : Int)
    (h : ∀ gk ∈ gks, ((gk.1, gk.2.1, gk.2.2, inp.window_days) : StatsKey) ≠ (st, src, kd, wd)) :
    alookup (gks.foldl (mainStep inp) m) (st, src, kd, wd) =
      alookup m (st, src, kd, wd) := by
  induction gks generalizing m with
  | nil => rfl
  | cons gk rest ih =>
      rw [List.foldl_cons]
      rw [ih (mainStep inp m gk) (fun g hg => h g (List.mem_cons_of_mem gk hg))]
      unfold mainStep
      rw [alookup_setKey,
        if_neg (fun hc => h gk (List.mem_cons_self gk rest) hc.symm)]

theorem foldl_bothStep_frame (inp : StatsInput) (ps : List (String × String))
    (m : List (StatsKey × StatsRow)) (st src kd : String) (wd : Int)
    (h : wd ≠ inp.window_days ∨ kd ≠ "both" ∨
      statsGroup inp (st, src, "high") = [] ∨ statsGroup inp (st, src, "low") = []) :
    alookup (ps.foldl (bothStep inp) m) (st, src, kd, wd) =
      alookup m (st, src, kd, wd) := by
  induction ps generalizing m with
  | nil => rfl
  | cons pr rest ih =>
      rw [List.foldl_cons, ih (bothStep inp m pr)]
      unfold bothStep
      by_cases hg : statsGroup inp (pr.1, pr.2, "high") = [] ∨
          statsGroup inp (pr.1, pr.2, "low") = []
      · rw [if_pos hg]
      · rw [if_neg hg]
        rw [alookup_setKey]
        refine if_neg (fun hc => ?_)
        have hst : st = pr.1 := congrArg Prod.fst hc
        have hsrc : src = pr.2 := congrArg Prod.fst (congrArg Prod.snd hc)
        have hkd : kd = "both" :=
          congrArg Prod.fst (congrArg Prod.snd (congrArg Prod.snd hc))
        have hwd : wd = inp.window_days :=
          congrArg Prod.snd (congrArg Prod.snd (congrArg Prod.snd hc))
        rcases h with h | h | h | h
        · exact h hwd
        · exact h hkd
        · rw [hst, hsrc] at h
          exact hg (Or.inl h)
        · rw [hst, hsrc] at h
          exact hg (Or.inr h)

theorem foldl_bothStep_not_mem (inp : StatsInput) (ps : List (String × String))
    (m : List (StatsKey × StatsRow)) (st src kd : String) (wd : Int)
    (h : (st, src) ∉ ps) :
    alookup (ps.foldl (bothStep inp) m) (st, src, kd, wd) =
      alookup m (st, src, kd, wd) := by
  induction ps generalizing m with
  | nil => rfl
  | cons pr rest ih =>
      rw [List.foldl_cons, ih (bothStep inp m pr)
        (fun hc => h (List.mem_cons_of_mem pr hc))]
      unfold bothStep
      by_cases hg : statsGroup inp (pr.1, pr.2, "high") = [] ∨
          statsGroup inp (pr.1, pr.2, "low") = []
      · rw [if_pos hg]
      · rw [if_neg hg]
        rw [alookup_setKey]
        refine if_neg (fun hc => ?_)
        have hst : st = pr.1 := congrArg Prod.fst hc
        have hsrc : src = pr.2 := congrArg Prod.fst (congrArg Prod.snd hc)
        exact h (by rw [hst, hsrc]; exact List.mem_cons_self pr rest)

theorem foldl_bothStep_mem (inp : StatsInput) (ps : List (String × String))
    (m : List (StatsKey × StatsRow)) (st src : String)
    (hmem : (st, src) ∈ ps)
    (hH : statsGroup inp (st, src, "high") ≠ [])
    (hL : statsGroup inp (st, src, "low") ≠ []) :
    ∃ r, alookup (ps.foldl (bothStep inp) m)
        (st, src, "both", inp.window_days) = some r ∧
      r.n = min (statsGroup inp (st, src, "high")).length
        (statsGroup inp (st, src, "low")).length ∧
      r.mae = (maeOf (statsGroup inp (st, src, "high")) +
        maeOf (statsGroup inp (st, src, "low"))) / 2 ∧
      r.last_updated = inp.now_ts := by
  induction ps generalizing m with
  | nil => exact absurd hmem (List.not_mem_nil _)
  | cons pr rest ih =>
      rw [List.foldl_cons]
      by_cases hpr : pr = (st, src)
      · subst hpr
        have hstep : bothStep inp m (st, src) =
            setKey m (st, src, "both", inp.window_days)
              (bothMerge
                (min (statsGroup inp (st, src, "high")).length
                  (statsGroup inp (st, src, "low")).length)
                ((maeOf (statsGroup inp (st, src, "high")) +
                  maeOf (statsGroup inp (st, src, "low"))) / 2) inp.now_ts) := by
          unfold bothStep
          rw [if_neg (fun hc => hc.elim hH hL)]
        by_cases hrest : (st, src) ∈ rest
        · exact ih (bothStep inp m (st, src)) hrest
        · rw [foldl_bothStep_not_mem inp rest _ st src "both" inp.window_days hrest,
            hstep, alookup_setKey, if_pos rfl]
          refine ⟨_, rfl, ?_, ?_, ?_⟩ <;>
            cases alookup m (st, src, "both", inp.window_days) <;> rfl
      · have hmem' : (st, src) ∈ rest := by
          rcases List.mem_cons.mp hmem with hc | hc
          · exact absurd hc.symm hpr
          · exact hc
        exact ih (bothStep inp m pr) hmem'

theorem isSome_foldl_mainStep (inp : StatsInput) (gks : List (String × String × String))
    (m : List (StatsKey × StatsRow)) (k : StatsKey)
    (h : (alookup m k).isSome) :
    (alookup (gks.foldl (mainStep inp) m) k).isSome := by
  induction gks generalizing m with
  | nil => exact h
  | cons gk rest ih =>
      rw [List.foldl_cons]
      exact ih (mainStep inp m gk) (alookup_setKey_isSome _ _ _ _ h)

theorem isSome_foldl_bothStep (inp : StatsInput) (ps : List (String × String))
    (m : List (StatsKey × StatsRow)) (k : StatsKey)
    (h : (alookup m k).isSome) :
    (alookup (ps.foldl (bothStep inp) m) k).isSome := by
  induction ps generalizing m with
  | nil => exact h
  | cons pr rest ih =>
      rw [List.foldl_cons]
      refine ih (bothStep inp m pr) ?_
      unfold bothStep
      by_cases hg : statsGroup inp (pr.1, pr.2, "high") = [] ∨
          statsGroup inp (pr.1, pr.2, "low") = []
      · rwa [if_pos hg]
      · rw [if_neg hg]
        exact alookup_setKey_isSome _ _ _ _ h

/-- In the final store, the "both" row for a pair with samples of both kinds
carries the pseudo-kind aggregates: `n = min(n_high, n_low)`,
`mae = (mae_high + mae_low) / 2`, and this pass's timestamp. -/
theorem update_error_stats_both_row (inp : StatsInput)
    (stats : List (StatsKey × StatsRow)) (st src : String)
    (hH : statsGroup inp (st, src, "high") ≠ [])
    (hL : statsGroup inp (st, src, "low") ≠ []) :
    ∃ r, alookup (update_error_stats inp stats)
        (st, src, "both", inp.window_days) = some r ∧
      r.n = min (statsGroup inp (st, src, "high")).length
        (statsGroup inp (st, src, "low")).length ∧
      r.mae = (maeOf (statsGroup inp (st, src, "high")) +
        maeOf (statsGroup inp (st, src, "low"))) / 2 ∧
      r.last_updated = inp.now_ts :=
  foldl_bothStep_mem inp (statsPairs inp) (statsMainFold inp stats) st src
    (mem_statsPairs_of_group_ne inp st src "high" hH) hH hL

/-- C6: a stats-refresh pass writes the combined "both" pseudo-kind row for a
(station, source) pair exactly when both the high and the low kind have at
least one sample in the window, and the written row has
`mae = (mae_high + mae_low) / 2` and `n = min(n_high, n_low)`. -/
theorem update_error_stats_both (inp : StatsInput)
    (stats : List (StatsKey × StatsRow)) (st src : String) :
    ((st, src) ∈ statsBothWritten inp ↔
      statsGroup inp (st, src, "high") ≠ [] ∧ statsGroup inp (st, src, "low") ≠ []) ∧
    (statsGroup inp (st, src, "high") ≠ [] → statsGroup inp (st, src, "low") ≠ [] →
      ∃ r, alookup (update_error_stats inp stats)
          (st, src, "both", inp.window_days) = some r ∧
        r.mae = (maeOf (statsGroup inp (st, src, "high")) +
          maeOf (statsGroup inp (st, src, "low"))) / 2 ∧
        r.n = min (statsGroup inp (st, src, "high")).length
          (statsGroup inp (st, src, "low")).length) := by
  constructor
  · constructor
    · intro hmem
      have := List.mem_filter.mp hmem
      have hcond := this.2
      simp only [Bool.and_eq_true, decide_eq_true_eq] at hcond
      exact hcond
    · intro ⟨hH, hL⟩
      refine List.mem_filter.mpr ⟨mem_statsPairs_of_group_ne inp st src "high" hH, ?_⟩
      simp only [Bool.and_eq_true, decide_eq_true_eq]
      exact ⟨hH, hL⟩
  · intro hH hL
    obtain ⟨r, hr, hn, hmae, _⟩ := update_error_stats_both_row inp stats st src hH hL
    exact ⟨r, hr, hmae, hn⟩

/-- A stats store holding one stale "both" row, and an error table whose rows
for (S, A) carry only the kinds high and low. -/
def statsSampleRow : StatsRow :=
  { n := 5, bias := none, mae := 9, rmse_sq := none,
    p10 := none, p50 := none, p90 := none, last_updated := "old" }

def statsSampleStats : List (StatsKey × StatsRow) :=
  [((("S", "A", "both", 30) : StatsKey), statsSampleRow)]

def statsSampleInput : StatsInput :=
  { window_days := 30, station_id := none, today := 0, now_ts := "new",
    forecast_errors :=
      [{ station_id := some "S", source := some "A", kind := some "high",
         target_date := 0, error_f := some 1, abs_error_f := some 1 },
       { station_id := some "S", source := some "A", kind := some "low",
         target_date := 0, error_f := some 1, abs_error_f := some 1 }] }

theorem update_error_stats_both_witness :
    statsGroup statsSampleInput ("S", "A", "high") ≠ [] ∧
    statsGroup statsSampleInput ("S", "A", "low") ≠ [] ∧
    (((("S", "A") ∈ statsBothWritten statsSampleInput) ↔
      statsGroup statsSampleInput ("S", "A", "high") ≠ [] ∧
      statsGroup statsSampleInput ("S", "A", "low") ≠ []) ∧
    (∃ r, alookup (update_error_stats statsSampleInput statsSampleStats)
        ("S", "A", "both", statsSampleInput.window_days) = some r ∧
      r.mae = (maeOf (statsGroup statsSampleInput ("S", "A", "high")) +
        maeOf (statsGroup statsSampleInput ("S", "A", "low"))) / 2 ∧
      r.n = min (statsGroup statsSampleInput ("S", "A", "high")).length
        (statsGroup statsSampleInput ("S", "A", "low")).length)) :=
  ⟨by decide, by decide,
    (update_error_stats_both statsSampleInput statsSampleStats "S" "A").1,
    (update_error_stats_both statsSampleInput statsSampleStats "S" "A").2
      (by decide) (by decide)⟩

/-- C10 counterexample: the stats pass overwrites the stored
("S", "A", "both", 30) row — changing its `n` — although no error row in the
window carries the kind "both", i.e. the (station, source, kind) group of that
row has no error rows.  The "both" pseudo-kind write fires whenever both the
high and the low group are non-empty. -/
theorem update_error_stats_frame_counterexample :
    (∀ r ∈ statsSampleInput.forecast_errors, r.kind ≠ some "both") ∧
    alookup statsSampleStats ("S", "A", "both", 30) = some statsSampleRow ∧
    alookup (update_error_stats statsSampleInput statsSampleStats)
      ("S", "A", "both", 30) ≠ some statsSampleRow := by
  refine ⟨by decide, rfl, ?_⟩
  obtain ⟨r, hr, hn, hmae, hts⟩ :=
    update_error_stats_both_row statsSampleInput statsSampleStats "S" "A"
      (by decide) (by decide)
  intro h
  have hwd : statsSampleInput.window_days = (30 : Int) := rfl
  rw [hwd] at hr
  rw [hr] at h
  have hre : r = statsSampleRow := Option.some.inj h
  have h1 : (statsGroup statsSampleInput ("S", "A", "high")).length = 1 := by decide
  have h2 : (statsGroup statsSampleInput ("S", "A", "low")).length = 1 := by decide
  rw [h1, h2, hre] at hn
  exact absurd hn (by decide)

/-- C10 (amended): a stats-refresh pass never deletes stats rows, and it
inserts or overwrites only rows keyed by this call's `window_days` whose
(station, source, kind) group has at least one error row in the current
window — except that the "both" pseudo-kind row of a (station, source) pair
is also rewritten whenever both the high and the low groups are non-empty,
even though no error row carries the kind "both".  Every other row (different
window_days, station filtered out — whose groups are then empty — or a group
with no samples that is not such a "both" target) is left completely
unchanged, including `n` and `last_updated`. -/
theorem update_error_stats_frame (inp : StatsInput)
    (stats : List (StatsKey × StatsRow)) (st src kd : String) (wd : Int) :
    ((wd ≠ inp.window_days ∨
      (statsGroup inp (st, src, kd) = [] ∧
        ¬(kd = "both" ∧ statsGroup inp (st, src, "high") ≠ [] ∧
          statsGroup inp (st, src, "low") ≠ []))) →
      alookup (update_error_stats inp stats) (st, src, kd, wd) =
        alookup stats (st, src, kd, wd)) ∧
    (∀ r, alookup stats (st, src, kd, wd) = some r →
      ∃ r', alookup (update_error_stats inp stats) (st, src, kd, wd) = some r') := by
  constructor
  · intro h
    unfold update_error_stats statsBothFold statsMainFold
    have hboth : wd ≠ inp.window_days ∨ kd ≠ "both" ∨
        statsGroup inp (st, src, "high") = [] ∨
        statsGroup inp (st, src, "low") = [] := by
      rcases h with h | ⟨hg, hnb⟩
      · exact Or.inl h
      · by_cases hkd : kd = "both"
        · by_cases hHn : statsGroup inp (st, src, "high") = []
          · exact Or.inr (Or.inr (Or.inl hHn))
          · by_cases hLn : statsGroup inp (st, src, "low") = []
            · exact Or.inr (Or.inr (Or.inr hLn))
            · exact absurd ⟨hkd, hHn, hLn⟩ hnb
        · exact Or.inr (Or.inl hkd)
    rw [foldl_bothStep_frame inp (statsPairs inp) _ st src kd wd hboth]
    apply foldl_mainStep_frame
    intro gk hgk hc
    have hwd' : inp.window_days = wd :=
      congrArg Prod.snd (congrArg Prod.snd (congrArg Prod.snd hc))
    have hgk' : gk = (st, src, kd) := by
      have h1 : gk.1 = st := congrArg Prod.fst hc
      have h2 : gk.2.1 = src := congrArg Prod.fst (congrArg Prod.snd hc)
      have h3 : gk.2.2 = kd :=
        congrArg Prod.fst (congrArg Prod.snd (congrArg Prod.snd hc))
      calc gk = (gk.1, gk.2.1, gk.2.2) := rfl
      _ = (st, src, kd) := by rw [h1, h2, h3]
    rcases h with h | ⟨hg, _⟩
    · exact h hwd'.symm
    · rw [hgk'] at hgk
      exact (mem_statsGroupKeys_iff inp (st, src, kd)).mp hgk hg
  · intro r hrow
    unfold update_error_stats statsBothFold statsMainFold
    have h1 : (alookup stats (st, src, kd, wd)).isSome := by rw [hrow]; rfl
    have h2 := isSome_foldl_mainStep inp (statsGroupKeys inp) stats (st, src, kd, wd) h1
    have h3 := isSome_foldl_bothStep inp (statsPairs inp) _ (st, src, kd, wd) h2
    cases hfin : alookup ((statsPairs inp).foldl (bothStep inp)
        ((statsGroupKeys inp).foldl (mainStep inp) stats)) (st, src, kd, wd) with
    | none => rw [hfin] at h3; exact Bool.noConfusion h3
    | some r' => exact ⟨r', rfl⟩

theorem update_error_stats_frame_witness :
    ((60 : Int) ≠ statsSampleInput.window_days ∨
      (statsGroup statsSampleInput ("S", "A", "high") = [] ∧
        ¬("high" = "both" ∧ statsGroup statsSampleInput ("S", "A", "high") ≠ [] ∧
          statsGroup statsSampleInput ("S", "A", "low") ≠ []))) ∧
    alookup (update_error_stats statsSampleInput statsSampleStats)
        ("S", "A", "high", 60) = alookup statsSampleStats ("S", "A", "high", 60) :=
  ⟨Or.inl (by decide),
    (update_error_stats_frame statsSampleInput statsSampleStats "S" "A" "high" 60).1
      (Or.inl (by decide))⟩

/-! ## Payload normalizer (`src/morning.py`: `_require_str`, `_coerce_float`,
`_normalize_daily`, `_normalize_hourly_arrays`, `_normalize_payload_strict`) -/

/-- A Python number: an int/float value.  Floats include the non-finite
`inf`, `-inf` and `nan`. -/
inductive PyNum where
  | finite (q : ℚ)
  | inf
  | neginf
  | nan
deriving DecidableEq, Repr

def PyNum.isFinite : PyNum → Bool
  | PyNum.finite _ => true
  | _ => false

/-- An untyped Python/JSON value as handled by the normalizer. -/
inductive PyVal where
  | none
  | bool (b : Bool)
  | num (x : PyNum)
  | str (s : String)
  | list (l : List PyVal)
  | dict (d : List (String × PyVal))

/-- `d.get(k)`: `None` when the key is absent. -/
def dictGet (d : List (String × PyVal)) (k : String) : PyVal :=
  (alookup d k).getD PyVal.none

/-- Python `s.strip()`, on the character list (whitespace removed from both
ends). -/
def pyStrip (s : String) : String :=
  String.mk (((s.data.dropWhile Char.isWhitespace).reverse.dropWhile
    Char.isWhitespace).reverse)

/-- Python `s[:n]`: the first `n` characters. -/
def pyTake (s : String) (n : Nat) : String :=
  String.mk (s.data.take n)

/-- `_require_str(d, k)`: the value must be a string that is non-empty after
stripping; the stripped string is returned, anything else raises. -/
def require_str (d : List (String × PyVal)) (k : String) : Except String String :=
  match dictGet d k with
  | PyVal.str v =>
      if pyStrip v = "" then Except.error ("payload missing/invalid " ++ k)
      else Except.ok (pyStrip v)
  | _ => Except.error ("payload missing/invalid " ++ k)

/-- `_coerce_float(x)`: ints and floats pass through `float(x)` (bools are
ints in Python), non-empty-after-strip strings go through `float(s)` —
modelled by the parse parameter `pyFloat`, `none` being a raised
`ValueError` — and everything else raises (`none`). -/
def coerce_float (pyFloat : String → Option PyNum) (x : PyVal) : Option PyNum :=
  match x with
  | PyVal.num n => some n
  | PyVal.bool b => some (PyNum.finite (if b then 1 else 0))
  | PyVal.str s =>
      if pyStrip s = "" then none else pyFloat (pyStrip s)
  | _ => none

/-- One normalized daily row: `{"target_date": td[:10], "high_f": ..,
"low_f": ..}`. -/
structure DailyRow where
  target_date : String
  high_f : PyNum
  low_f : PyNum
deriving DecidableEq, Repr

/-- The body of the `_normalize_daily` row loop: `None` stands for a
`continue` (row dropped). -/
def dailyRowNorm (pyFloat : String → Option PyNum) : PyVal → Option DailyRow
  | PyVal.dict rd =>
      match dictGet rd "target_date" with
      | PyVal.str td =>
          if td.length < 10 then none
          else
            match coerce_float pyFloat (dictGet rd "high_f"),
                coerce_float pyFloat (dictGet rd "low_f") with
            | some hf, some lf =>
                some { target_date := pyTake td 10, high_f := hf, low_f := lf }
            | _, _ => none
      | _ => none
  | _ => none

/-- `_normalize_daily(payload)`: raises when `daily` is not a list; rows that
are not dicts, have no string `target_date` of length ≥ 10, or whose
temperatures fail to coerce are silently dropped. -/
def normalize_daily (pyFloat : String → Option PyNum)
    (payload : List (String × PyVal)) : Except String (List DailyRow) :=
  match dictGet payload "daily" with
  | PyVal.list daily => Except.ok (daily.filterMap (dailyRowNorm pyFloat))
  | _ => Except.error "payload missing/invalid daily (expected list)"

/-- One normalized hourly row: the stripped `valid_time` plus the subset of
standardized variables that coerced. -/
structure HourlyRow where
  valid_time : String
  fields : List (String × PyNum)
deriving DecidableEq, Repr

/-- The `key_map` of `_normalize_hourly_arrays`: standardized column name to
provider key candidates. -/
def hourlyKeyMap : List (String × List String) :=
  [("temperature_f", ["temperature_f", "temperature_2m"]),
   ("dewpoint_f", ["dewpoint_f", "dew_point_2m"]),
   ("humidity_pct", ["humidity_pct", "relative_humidity_2m"]),
   ("wind_speed_mph", ["wind_speed_mph", "wind_speed_10m"]),
   ("wind_dir_deg", ["wind_dir_deg", "wind_direction_10m"]),
   ("cloud_cover_pct", ["cloud_cover_pct", "cloud_cover"]),
   ("precip_prob_pct", ["precip_prob_pct", "precipitation_probability"])]

/-- The body of `_normalize_hourly_arrays` once `hourly` is known to be an
object (this part never raises: per-value `float` failures are caught and
skipped).  Rows are truncated to the shortest selected series (`m`); a row is
dropped when its time entry is not a non-empty string; per-variable values
are dropped when `None` or failing `float(val)`. -/
def hourlyRowsOfObj (pyFloat : String → Option PyNum)
    (h : List (String × PyVal)) : List HourlyRow :=
  match dictGet h "time" with
  | PyVal.list times =>
      if times.isEmpty then []
      else
        let series : List (String × List PyVal) :=
          hourlyKeyMap.filterMap (fun kc =>
            (kc.2.findSome? (fun cand =>
              match dictGet h cand with
              | PyVal.list v => some v
              | _ => Option.none)).map (fun v => (kc.1, v)))
        let m : Nat := series.foldl (fun acc sv => min acc sv.2.length) times.length
        (List.range m).filterMap (fun i =>
          match times.getD i PyVal.none with
          | PyVal.str vt =>
              if pyStrip vt = "" then Option.none
              else some
                { valid_time := pyStrip vt
                  fields := series.filterMap (fun sv =>
                    match sv.2.getD i PyVal.none with
                    | PyVal.none => Option.none
                    | v => (coerce_float pyFloat v).map (fun n => (sv.1, n))) }
          | _ => Option.none)
  | _ => []

/-- `_normalize_hourly_arrays(payload)`: `[]` when `hourly` is absent;
raises exactly when `hourly` is present and not an object. -/
def normalize_hourly (pyFloat : String → Option PyNum)
    (payload : List (String × PyVal)) : Except String (List HourlyRow) :=
  match dictGet payload "hourly" with
  | PyVal.none => Except.ok []
  | PyVal.dict h => Except.ok (hourlyRowsOfObj pyFloat h)
  | _ => Except.error "payload hourly must be an object when present"

/-- `_normalize_payload_strict(raw)`: non-dict payloads raise; then
`issued_at`, `daily` and `hourly` are validated in that order. -/
def normalize_payload_strict (pyFloat : String → Option PyNum) :
    PyVal → Except String (String × List DailyRow × List HourlyRow)
  | PyVal.dict d =>
      (match require_str d "issued_at" with
      | Except.error e => Except.error e
      | Except.ok issued_at =>
          match normalize_daily pyFloat d with
          | Except.error e => Except.error e
          | Except.ok daily_rows =>
              match normalize_hourly pyFloat d with
              | Except.error e => Except.error e
              | Except.ok hourly_rows => Except.ok (issued_at, daily_rows, hourly_rows))
  | _ => Except.error "collector returned non-dict; expected dict payload"

/-- The claim's top-level condition, from the spec's words: `issued_at` is a
non-empty string and `daily` is a list. -/
def isNonemptyStr : PyVal → Bool
  | PyVal.str s => decide (pyStrip s ≠ "")
  | _ => false

def isList : PyVal → Bool
  | PyVal.list _ => true
  | _ => false

/-- `hourly` may be absent (`None`) or an object; anything else is fatal. -/
def hourlyShapeOk : PyVal → Bool
  | PyVal.none => true
  | PyVal.dict _ => true
  | _ => false

theorem require_str_isOk (d : List (String × PyVal)) (k : String) :
    (require_str d k).isOk = isNonemptyStr (dictGet d k) := by
  unfold require_str isNonemptyStr
  cases dictGet d k with
  | str s =>
      by_cases h : pyStrip s = "" <;> simp [h, Except.isOk, Except.toBool]
  | none => rfl
  | bool b => rfl
  | num x => rfl
  | list l => rfl
  | dict dd => rfl

theorem normalize_daily_isOk (pyFloat : String → Option PyNum)
    (d : List (String × PyVal)) :
    (normalize_daily pyFloat d).isOk = isList (dictGet d "daily") := by
  unfold normalize_daily isList
  cases dictGet d "daily" <;> rfl

theorem normalize_hourly_isOk (pyFloat : String → Option PyNum)
    (d : List (String × PyVal)) :
    (normalize_hourly pyFloat d).isOk = hourlyShapeOk (dictGet d "hourly") := by
  unfold normalize_hourly hourlyShapeOk
  cases dictGet d "hourly" <;> rfl

/-- C7 (amended): `_normalize_payload_strict` succeeds exactly when the
payload is a dict whose `issued_at` is a non-empty string, whose `daily` is a
list, and whose `hourly` — if present — is an object; equivalently it raises
also for a non-dict payload or a present non-object `hourly`, not only for a
bad `issued_at`/`daily`.  Since success depends only on these top-level
shapes, individual daily rows failing row-level validation are dropped
without making the payload fail. -/
theorem normalize_payload_strict_ok_iff (pyFloat : String → Option PyNum)
    (raw : PyVal) :
    (normalize_payload_strict pyFloat raw).isOk = true ↔
      ∃ d, raw = PyVal.dict d ∧
        isNonemptyStr (dictGet d "issued_at") = true ∧
        isList (dictGet d "daily") = true ∧
        hourlyShapeOk (dictGet d "hourly") = true := by
  cases raw with
  | dict d =>
      constructor
      · intro hok
        refine ⟨d, rfl, ?_, ?_, ?_⟩
        all_goals
          simp only [normalize_payload_strict] at hok
          cases h1 : require_str d "issued_at" with
          | error e =>
              simp only [h1] at hok
              exact absurd hok (by simp [Except.isOk, Except.toBool])
          | ok v =>
              simp only [h1] at hok
              cases h2 : normalize_daily pyFloat d with
              | error e =>
                  simp only [h2] at hok
                  exact absurd hok (by simp [Except.isOk, Except.toBool])
              | ok dr =>
                  simp only [h2] at hok
                  cases h3 : normalize_hourly pyFloat d with
                  | error e =>
                      simp only [h3] at hok
                      exact absurd hok (by simp [Except.isOk, Except.toBool])
                  | ok hr =>
                      first
                      | (rw [← require_str_isOk d "issued_at", h1]; rfl)
                      | (rw [← normalize_daily_isOk pyFloat d, h2]; rfl)
                      | (rw [← normalize_hourly_isOk pyFloat d, h3]; rfl)
      · rintro ⟨d2, hd, h1, h2, h3⟩
        obtain rfl : d = d2 := by injection hd
        rw [← require_str_isOk d "issued_at"] at h1
        rw [← normalize_daily_isOk pyFloat d] at h2
        rw [← normalize_hourly_isOk pyFloat d] at h3
        simp only [normalize_payload_strict]
        cases hr1 : require_str d "issued_at" with
        | error e =>
            rw [hr1] at h1
            exact absurd h1 (by simp [Except.isOk, Except.toBool])
        | ok v =>
            cases hr2 : normalize_daily pyFloat d with
            | error e =>
                rw [hr2] at h2
                exact absurd h2 (by simp [Except.isOk, Except.toBool])
            | ok dr =>
                cases hr3 : normalize_hourly pyFloat d with
                | error e =>
                    rw [hr3] at h3
                    exact absurd h3 (by simp [Except.isOk, Except.toBool])
                | ok hrr => rfl
  | none =>
      simp [normalize_payload_strict, Except.isOk, Except.toBool]
  | bool b =>
      simp [normalize_payload_strict, Except.isOk, Except.toBool]
  | num x =>
      simp [normalize_payload_strict, Except.isOk, Except.toBool]
  | str s =>
      simp [normalize_payload_strict, Except.isOk, Except.toBool]
  | list l =>
      simp [normalize_payload_strict, Except.isOk, Except.toBool]

/-- A payload whose `issued_at` and `daily` are well-typed but whose
`hourly` is a string. -/
def hourlyBadDict : List (String × PyVal) :=
  [("issued_at", PyVal.str "2026-02-01T00:00:00Z"),
   ("daily", PyVal.list []),
   ("hourly", PyVal.str "boom")]

/-- C7 counterexample: the normalizer raises on a payload whose `issued_at`
is a non-empty string and whose `daily` is a list, because its `hourly` is
present and not an object — refuting "raises exactly when issued_at or daily
is absent or of the wrong top-level type". -/
theorem normalize_payload_strict_counterexample :
    isNonemptyStr (dictGet hourlyBadDict "issued_at") = true ∧
    isList (dictGet hourlyBadDict "daily") = true ∧
    (normalize_payload_strict (fun _ => Option.none)
      (PyVal.dict hourlyBadDict)).isOk = false :=
  ⟨by decide, rfl, rfl⟩

/-- Month length including the Gregorian leap rule (spec-side reference for
"well-formed calendar date"). -/
def specDaysInMonth (y m : Nat) : Nat :=
  if m = 2 then (if (y % 4 = 0 ∧ y % 100 ≠ 0) ∨ y % 400 = 0 then 29 else 28)
  else if m = 4 ∨ m = 6 ∨ m = 9 ∨ m = 11 then 30 else 31

/-- Spec-side reference definition of a well-formed `YYYY-MM-DD` calendar
date, used to state what the code does **not** check. -/
def specWellFormedDate (s : String) : Bool :=
  match s.data with
  | [y1, y2, y3, y4, c1, m1, m2, c2, d1, d2] =>
      (y1.isDigit && y2.isDigit && y3.isDigit && y4.isDigit &&
        (c1 == '-') && (c2 == '-') &&
        m1.isDigit && m2.isDigit && d1.isDigit && d2.isDigit) &&
      (let y := (y1.toNat - 48) * 1000 + (y2.toNat - 48) * 100 +
          (y3.toNat - 48) * 10 + (y4.toNat - 48)
       let mo := (m1.toNat - 48) * 10 + (m2.toNat - 48)
       let da := (d1.toNat - 48) * 10 + (d2.toNat - 48)
       decide (1 ≤ mo) && decide (mo ≤ 12) && decide (1 ≤ da) &&
         decide (da ≤ specDaysInMonth y mo))
  | _ => false

/-- A daily row whose date is a 11-character non-date string and whose high
temperature is the float `inf`. -/
def badDateDict : List (String × PyVal) :=
  [("target_date", PyVal.str "abcdefghijk"),
   ("high_f", PyVal.num PyNum.inf),
   ("low_f", PyVal.num (PyNum.finite 3))]

def badDatePayload : List (String × PyVal) :=
  [("issued_at", PyVal.str "t"), ("daily", PyVal.list [PyVal.dict badDateDict])]

def badDateRow : DailyRow :=
  { target_date := "abcdefghij", high_f := PyNum.inf, low_f := PyNum.finite 3 }

/-- C8 counterexample: `_normalize_daily` emits a row whose `target_date` is
not a well-formed calendar date (only a ≥10-character string truncated to 10)
and whose high temperature is the non-finite `inf` — refuting "every emitted
row has a well-formed calendar date and finite temperatures". -/
theorem normalize_daily_counterexample :
    normalize_daily (fun _ => Option.none) badDatePayload = Except.ok [badDateRow] ∧
    specWellFormedDate badDateRow.target_date = false ∧
    badDateRow.high_f.isFinite = false :=
  ⟨rfl, by decide, rfl⟩

theorem pyTake_length (s : String) (n : Nat) :
    (pyTake s n).length = min n s.length := by
  show (s.data.take n).length = min n s.data.length
  simp [List.length_take]

/-- C8 (amended): every daily row emitted by `_normalize_daily` comes from a
dict row whose `target_date` is a string of length ≥ 10 and whose `high_f`
and `low_f` coerce to floats; the emitted date is the first 10 characters of
that string (no calendar validation) and the temperatures are the coerced
values (finiteness is not checked).  Rows failing these checks are dropped. -/
theorem normalize_daily_row_shape (pyFloat : String → Option PyNum)
    (d : List (String × PyVal)) (ds : List PyVal)
    (hd : dictGet d "daily" = PyVal.list ds) :
    ∃ rows, normalize_daily pyFloat d = Except.ok rows ∧
      ∀ row ∈ rows, row.target_date.length = 10 ∧
        ∃ rd, PyVal.dict rd ∈ ds ∧
          ∃ td, dictGet rd "target_date" = PyVal.str td ∧ 10 ≤ td.length ∧
            row.target_date = pyTake td 10 ∧
            coerce_float pyFloat (dictGet rd "high_f") = some row.high_f ∧
            coerce_float pyFloat (dictGet rd "low_f") = some row.low_f := by
  refine ⟨_, by unfold normalize_daily; rw [hd], ?_⟩
  intro row hrow
  obtain ⟨r, hr, hfr⟩ := List.mem_filterMap.mp hrow
  cases r with
  | dict rd =>
      simp only [dailyRowNorm] at hfr
      cases htd : dictGet rd "target_date" with
      | str td =>
          simp only [htd] at hfr
          by_cases hlen : td.length < 10
          · rw [if_pos hlen] at hfr
            exact Option.noConfusion hfr
          · rw [if_neg hlen] at hfr
            cases hhf : coerce_float pyFloat (dictGet rd "high_f") with
            | none =>
                simp only [hhf] at hfr
                exact Option.noConfusion hfr
            | some hf =>
                cases hlf : coerce_float pyFloat (dictGet rd "low_f") with
                | none =>
                    simp only [hhf, hlf] at hfr
                    exact Option.noConfusion hfr
                | some lf =>
                    simp only [hhf, hlf] at hfr
                    have hrw : ({ target_date := pyTake td 10, high_f := hf, low_f := lf } : DailyRow) = row :=
                      Option.some.inj hfr
                    refine ⟨?_, rd, hr, td, htd, Nat.le_of_not_lt hlen, ?_, ?_, ?_⟩
                    · rw [← hrw]
                      show (pyTake td 10).length = 10
                      rw [pyTake_length]
                      omega
                    · rw [← hrw]
                    · rw [← hrw, hhf]
                    · rw [← hrw, hlf]
      | none =>
          simp only [htd] at hfr
          exact Option.noConfusion hfr
      | bool b =>
          simp only [htd] at hfr
          exact Option.noConfusion hfr
      | num x =>
          simp only [htd] at hfr
          exact Option.noConfusion hfr
      | list l =>
          simp only [htd] at hfr
          exact Option.noConfusion hfr
      | dict dd =>
          simp only [htd] at hfr
          exact Option.noConfusion hfr
  | none => exact Option.noConfusion hfr
  | bool b => exact Option.noConfusion hfr
  | num x => exact Option.noConfusion hfr
  | str s => exact Option.noConfusion hfr
  | list l => exact Option.noConfusion hfr

theorem normalize_daily_row_shape_witness :
    dictGet badDatePayload "daily" = PyVal.list [PyVal.dict badDateDict] ∧
    (∃ rows, normalize_daily (fun _ => Option.none) badDatePayload = Except.ok rows ∧
      ∀ row ∈ rows, row.target_date.length = 10 ∧
        ∃ rd, PyVal.dict rd ∈ [PyVal.dict badDateDict] ∧
          ∃ td, dictGet rd "target_date" = PyVal.str td ∧ 10 ≤ td.length ∧
            row.target_date = pyTake td 10 ∧
            coerce_float (fun _ => Option.none) (dictGet rd "high_f") = some row.high_f ∧
            coerce_float (fun _ => Option.none) (dictGet rd "low_f") = some row.low_f) :=
  ⟨rfl, normalize_daily_row_shape (fun _ => Option.none) badDatePayload
    [PyVal.dict badDateDict] rfl⟩

end Kalshicast
